import Mathlib

/-!
Verification of the conversation/context assembly and history-persistence
logic of `azcc.py` (Azure Claude Code clone), via a shallow embedding of the
relevant Python functions as Lean definitions.

Modelling conventions:
- A Python message dict `{"role": r, "content": c}` is a `Turn`.
- Python list slicing `l[i:]` is `pySliceFrom l i` with exact Python index
  semantics (negative indices clamp at 0; `l[-0:]` is `l[0:]`, the whole list).
- Python string truthiness (`if s:` on `str` or `None`) is `optTruthy`.
- File-system interaction is made explicit: a directory is the list of files
  that the recursive glob enumeration would visit, the remote completion call
  is an oracle `List Turn → Except String String`, and the pickled history
  file is carried in the application state.  Per-file reads inside
  `set_context` are modelled as succeeding (no claim concerns a file that is
  listed but unreadable).
-/

/-- One chat message: the Python dict `{"role": ..., "content": ...}`. -/
structure Turn where
  role : String
  content : String
deriving DecidableEq, Repr

/-- Python list slice `l[i:]` for an arbitrary integer `i`: a negative start
index counts from the end and clamps at 0, a non-negative start index clamps
at `l.length`.  In particular `l[(-0):] = l[0:] = l`. -/
def pySliceFrom {α : Type} (l : List α) (i : Int) : List α :=
  let start : Int := if i < 0 then max ((l.length : Int) + i) 0 else min i (l.length : Int)
  l.drop start.toNat

/-- Python truthiness of an `Optional[str]`: `None` and `""` are falsy. -/
def optTruthy : Option String → Bool
  | none => false
  | some s => !(s == "")

/-- The fixed system-message content built in `generate_response`
(lines 125-131 of `azcc.py`; adjacent Python string literals concatenate). -/
def fixed_system_content : String :=
  "You are AzureCC, a command-line AI assistant specialized in helping with code. " ++
  "Provide concise, practical responses focused on code solutions. " ++
  "Use markdown for formatting. For code, always specify the language. " ++
  "When explaining code, be clear and brief. "

/-- The message list assembled by `AzureClaudeCode.generate_response`
(lines 119-144): a system turn (with the project context appended when a
truthy context is present and the conversation is not being continued), then
`history[-3:]` when continuing with a non-empty history, then the new user
turn carrying the prompt. -/
def build_messages (prompt : String) (continue_conversation : Bool)
    (context : Option String) (history : List Turn) : List Turn :=
  let systemContent :=
    if optTruthy context && !continue_conversation then
      fixed_system_content ++ "\n\nProject context:\n" ++ context.getD ""
    else fixed_system_content
  let afterSystem : List Turn := [Turn.mk "system" systemContent]
  let withHistory :=
    if continue_conversation && !history.isEmpty then
      afterSystem ++ pySliceFrom history (-3)
    else afterSystem
  withHistory ++ [Turn.mk "user" prompt]

/-- The sequence written by `AzureClaudeCode._save_history` (line 89):
`self.history[-self.config.max_history:]`. -/
def save_slice (history : List Turn) (max_history : Int) : List Turn :=
  pySliceFrom history (-max_history)

/-- Substring containment on strings (decidable, by scanning every start
position of the haystack). -/
def containsSub (s pat : String) : Bool :=
  (List.range (s.data.length + 1)).any (fun i => pat.data.isPrefixOf (s.data.drop i))

/-- Interchange a suffix-containment fact into `containsSub`. -/
theorem containsSub_append (a b : String) : containsSub (a ++ b) b = true := by
  unfold containsSub
  rw [List.any_eq_true]
  refine ⟨a.data.length, ?_, ?_⟩
  · rw [List.mem_range]
    have : (a ++ b).data = a.data ++ b.data := String.data_append a b
    rw [this, List.length_append]
    omega
  · have : (a ++ b).data = a.data ++ b.data := String.data_append a b
    rw [this, List.drop_left]
    simp [List.isPrefixOf_iff_prefix]

/-- The configuration record assembled by `_load_config` (lines 41-58).
`temperature` is a float and plays no role in any property below, so it is
omitted from the model; `max_history` comes from `int(...)` and may be any
integer. -/
structure Config where
  api_key : String
  endpoint : String
  deployment : String
  history_file : String
  max_history : Int
deriving DecidableEq, Repr

/-- One file visited by the recursive glob in `set_context`: its path
relative to the scanned root, and its text content.  Reads are modelled as
succeeding. -/
structure SrcFile where
  name : String
  content : String
deriving DecidableEq, Repr

/-- A directory argument to `set_context`: whether `Path(p).exists()` holds,
and the files the recursive enumeration would visit (in enumeration order). -/
structure Directory where
  pathExists : Bool
  files : List SrcFile
deriving DecidableEq, Repr

/-- The mutable state of an `AzureClaudeCode` instance, plus the content of
the pickled history file it owns (`historyFile`). -/
structure AppState where
  config : Config
  history : List Turn
  context : Option String
  historyFile : List Turn
deriving DecidableEq, Repr

/-- The extension allow-list of `set_context` (line 99), in source order. -/
def code_extensions : List String :=
  [".py", ".js", ".java", ".cpp", ".h", ".cs", ".go", ".rs", ".ts", ".html", ".css"]

/-- Whether a file name matches the glob pattern `**/*{ext}`, i.e. ends with
the extension. -/
def matchesExt (name ext : String) : Bool :=
  ext.data.isSuffixOf name.data

/-- The `code_files` list of `set_context` (lines 98-100): for each allowed
extension in order, every file matching it, in enumeration order. -/
def collectCodeFiles (files : List SrcFile) : List SrcFile :=
  code_extensions.flatMap (fun ext => files.filter (fun f => matchesExt f.name ext))

/-- Whether a file matches some allowed extension. -/
def isCodeFile (f : SrcFile) : Bool :=
  code_extensions.any (fun ext => matchesExt f.name ext)

/-- `code_files[:5]` (line 103): the first five collected files. -/
def selectedFiles (files : List SrcFile) : List SrcFile :=
  (collectCodeFiles files).take 5

/-- One entry of `context_content` (lines 104-109): the file content,
truncated at 1000 characters with a trailing ellipsis marker, wrapped with
a header naming the relative path. -/
def formatEntry (f : SrcFile) : String :=
  let content := if f.content.length > 1000 then f.content.take 1000 ++ "..." else f.content
  "File: " ++ f.name ++ "\n```\n" ++ content ++ "\n```"

/-- `AzureClaudeCode.set_context` (lines 91-117): a nonexistent path warns
and returns with the state untouched; otherwise the first five collected
files are formatted and joined with blank lines, and the context is replaced
only when at least one entry was produced (else only a warning is printed). -/
def set_context (st : AppState) (dir : Directory) : AppState :=
  if dir.pathExists = false then st
  else
    let context_content := (selectedFiles dir.files).map formatEntry
    if context_content.isEmpty = true then st
    else { st with context := some (String.intercalate "\n\n" context_content) }

/-- What `generate_response` communicates back: the returned value
(`None` on failure) and whether an error message was printed. -/
structure GenResult where
  response : Option String
  errorReported : Bool
deriving DecidableEq, Repr

/-- `AzureClaudeCode.generate_response` (lines 119-159) with the remote
completion call abstracted as an oracle from the assembled message list to
either a reply text or a raised error.  Both the streaming and the
non-streaming paths catch any exception, print an error and return `None`;
on success they return the reply text. -/
def generate_response (prompt : String) (continue_conversation : Bool)
    (context : Option String) (history : List Turn)
    (completion : List Turn → Except String String) : GenResult :=
  let messages := build_messages prompt continue_conversation context history
  match completion messages with
  | Except.ok text => ⟨some text, false⟩
  | Except.error _ => ⟨none, true⟩

/-- The one-shot prompt path of `main` (lines 306-317): generate a response;
only when the response is truthy and `--continue` was given, append the
user/assistant pair to the in-memory history and persist its
`[-max_history:]` slice. -/
def main_oneshot (st : AppState) (prompt : String) (continue_conversation : Bool)
    (completion : List Turn → Except String String) : AppState :=
  let r := generate_response prompt continue_conversation st.context st.history completion
  if optTruthy r.response && continue_conversation then
    let newHistory := st.history ++ [Turn.mk "user" prompt, Turn.mk "assistant" (r.response.getD "")]
    { st with history := newHistory,
              historyFile := save_slice newHistory st.config.max_history }
  else st

/-- One iteration of `interactive_mode` on an ordinary prompt
(lines 207-213): generate with `continue_conversation=True`; the
user/assistant pair is appended to the session history only when the
response is truthy. -/
def interactive_step (st : AppState) (session_history : List Turn) (user_input : String)
    (completion : List Turn → Except String String) : List Turn :=
  let r := generate_response user_input true st.context st.history completion
  if optTruthy r.response then
    session_history ++ [Turn.mk "user" user_input, Turn.mk "assistant" (r.response.getD "")]
  else session_history

/-- The observable states of the pickled history file when `_load_history`
runs: absent (`Path.exists()` false), present but unreadable (`open`
raises), present but undeserializable (`pickle.load` raises), or present
and deserializing to a turn list. -/
inductive HistoryFileState where
  | absent
  | unreadable
  | corrupt
  | ok (h : List Turn)
deriving DecidableEq, Repr

/-- `AzureClaudeCode._load_history` (lines 72-81): a missing file yields
`[]`; any exception while opening or unpickling is caught and yields `[]`;
otherwise the unpickled history is returned. -/
def load_history : HistoryFileState → List Turn
  | HistoryFileState.absent => []
  | HistoryFileState.unreadable => []
  | HistoryFileState.corrupt => []
  | HistoryFileState.ok h => h

/-- Structural JSON values, modelling the document `json.dump` writes and
`json.load` reads back (object key order is preserved, as for Python dicts). -/
inductive Json where
  | str : String → Json
  | arr : List Json → Json
  | obj : List (String × Json) → Json

/-- The JSON object serialized for one turn dict. -/
def turnToJson (t : Turn) : Json :=
  Json.obj [("role", Json.str t.role), ("content", Json.str t.content)]

/-- The JSON document `json.dump(self.history, f, indent=2)` writes. -/
def historyToJson (h : List Turn) : Json :=
  Json.arr (h.map turnToJson)

/-- `AzureClaudeCode.export_history` (lines 225-236): with an empty history
nothing is written; otherwise the full in-memory history (not the truncated
persisted slice) is serialized to the destination. -/
def export_history (h : List Turn) : Option Json :=
  if h.isEmpty = true then none else some (historyToJson h)

/-- Re-parsing one turn object from the exported document. -/
def jsonToTurn : Json → Option Turn
  | Json.obj [("role", Json.str r), ("content", Json.str c)] => some (Turn.mk r c)
  | _ => none

/-- Re-parsing the exported document into a turn sequence. -/
def jsonToHistory : Json → Option (List Turn)
  | Json.arr js => js.mapM jsonToTurn
  | _ => none

/-! ## Shared concrete sample data for witnesses -/

/-- A three-turn history used as concrete input by several witnesses. -/
def sampleHistory : List Turn :=
  [Turn.mk "user" "a", Turn.mk "assistant" "b", Turn.mk "user" "c"]

/-- A concrete application state used by several witnesses. -/
def sampleState : AppState :=
  { config := { api_key := "key", endpoint := "https://example", deployment := "gpt-4",
                history_file := "hist", max_history := 10 },
    history := sampleHistory,
    context := some "prior",
    historyFile := [] }

/-- A completion oracle that always raises. -/
def failingCompletion : List Turn → Except String String :=
  fun _ => Except.error "boom"

/-- A completion oracle that always succeeds with the empty reply. -/
def emptyCompletion : List Turn → Except String String :=
  fun _ => Except.ok ""

/-! ## C1: continued request shape -/

/-- Claim C1 (amended): for every prompt `p`, context string `X` and history
`h` with at least 3 turns, building with `continueConversation=true` yields
exactly 5 turns: a system turn whose content is exactly the fixed instruction
text (independent of `X`, so it contains `X` only if `X` already occurs in
that fixed text), then the last 3 turns of `h` in order, then a user turn
with content `p`. -/
theorem continue_request_shape (p X : String) (h : List Turn) (hl : 3 ≤ h.length) :
    build_messages p true (some X) h
      = Turn.mk "system" fixed_system_content :: (h.drop (h.length - 3) ++ [Turn.mk "user" p])
    ∧ (build_messages p true (some X) h).length = 5
    ∧ h.drop (h.length - 3) <:+ h
    ∧ (h.drop (h.length - 3)).length = 3 := by
  have hne : h.isEmpty = false := by
    cases h with
    | nil => simp at hl
    | cons a t => rfl
  have hslice : pySliceFrom h (-3) = h.drop (h.length - 3) := by
    have h1 : (if (-3 : Int) < 0 then max ((h.length : Int) + -3) 0
        else min (-3) ((h.length : Int))).toNat = h.length - 3 := by
      rw [if_pos (by norm_num : (-3 : Int) < 0)]
      omega
    show h.drop ((if (-3 : Int) < 0 then max ((h.length : Int) + -3) 0
        else min (-3) ((h.length : Int))).toNat) = h.drop (h.length - 3)
    rw [h1]
  have hbuild : build_messages p true (some X) h
      = Turn.mk "system" fixed_system_content :: (h.drop (h.length - 3) ++ [Turn.mk "user" p]) := by
    simp [build_messages, hne, hslice]
  refine ⟨hbuild, ?_, List.drop_suffix _ _, ?_⟩
  · rw [hbuild]
    simp only [List.length_cons, List.length_append, List.length_drop, List.length_nil]
    omega
  · rw [List.length_drop]
    omega

set_option maxRecDepth 40000 in
/-- Claim C1, counterexample to the claim as stated: with the concrete
context string "You are AzureCC" (and a 3-turn history), the system turn of
the built request does contain the context string — its content is the fixed
instruction text, which happens to contain `X`; so "whose content never
contains X" is false for this `X`. -/
theorem continue_system_contains_context_counterexample :
    containsSub
      ((build_messages "hi" true (some "You are AzureCC") sampleHistory).headD
        (Turn.mk "" "")).content
      "You are AzureCC" = true := by
  decide

/-- Claim C1, witness: the amended theorem applied at a concrete prompt,
context and 3-turn history. -/
theorem continue_request_shape_witness :
    3 ≤ sampleHistory.length
    ∧ (build_messages "next" true (some "CTX") sampleHistory
        = Turn.mk "system" fixed_system_content ::
            (sampleHistory.drop (sampleHistory.length - 3) ++ [Turn.mk "user" "next"])
      ∧ (build_messages "next" true (some "CTX") sampleHistory).length = 5
      ∧ sampleHistory.drop (sampleHistory.length - 3) <:+ sampleHistory
      ∧ (sampleHistory.drop (sampleHistory.length - 3)).length = 3) :=
  ⟨by decide, continue_request_shape "next" "CTX" sampleHistory (by decide)⟩

/-! ## C2: fresh request shape -/

/-- Claim C2: for every prompt `p`, non-empty context `X` and history `h` of
any length, building with `continueConversation=false` yields exactly the two
turns system-then-user; the system content contains `X` (it is the fixed text
with the context appended), the user content is `p`, and no turn of `h` is
included (the result is exactly those two freshly built turns, whatever `h`
is). -/
theorem fresh_request_shape (p X : String) (h : List Turn) (hX : X ≠ "") :
    build_messages p false (some X) h
      = [Turn.mk "system" (fixed_system_content ++ "\n\nProject context:\n" ++ X),
         Turn.mk "user" p]
    ∧ containsSub (fixed_system_content ++ "\n\nProject context:\n" ++ X) X = true
    ∧ (build_messages p false (some X) h).length = 2 := by
  have hx : (X == "") = false := beq_eq_false_iff_ne.mpr hX
  have heq : build_messages p false (some X) h
      = [Turn.mk "system" (fixed_system_content ++ "\n\nProject context:\n" ++ X),
         Turn.mk "user" p] := by
    simp [build_messages, optTruthy, hx]
  exact ⟨heq, containsSub_append _ X, by rw [heq]; rfl⟩

/-- Claim C2, witness: the theorem applied at a concrete prompt, context and
non-empty history. -/
theorem fresh_request_shape_witness :
    "CTX" ≠ ""
    ∧ (build_messages "p0" false (some "CTX") [Turn.mk "user" "old"]
        = [Turn.mk "system" (fixed_system_content ++ "\n\nProject context:\n" ++ "CTX"),
           Turn.mk "user" "p0"]
      ∧ containsSub (fixed_system_content ++ "\n\nProject context:\n" ++ "CTX") "CTX" = true
      ∧ (build_messages "p0" false (some "CTX") [Turn.mk "user" "old"]).length = 2) :=
  ⟨by decide, fresh_request_shape "p0" "CTX" [Turn.mk "user" "old"] (by decide)⟩

/-! ## C3: persisted history is a bounded suffix -/

/-- Claim C3 (amended): for every configured `max_history = N` with `N ≥ 1`
and every in-memory history `h`, the persisted slice `h[-N:]` has at most `N`
turns and is a suffix of `h` in original order.  (For `N = 0` the claim as
stated fails: Python `h[-0:]` is the whole list.) -/
theorem save_slice_bounded (N : Int) (h : List Turn) (hN : 1 ≤ N) :
    ((save_slice h N).length : Int) ≤ N ∧ save_slice h N <:+ h := by
  simp only [save_slice, pySliceFrom]
  rw [if_pos (by omega : -N < 0)]
  refine ⟨?_, List.drop_suffix _ _⟩
  rw [List.length_drop]
  omega

/-- Claim C3, counterexample to the claim as stated: with configured
`max_history = 0` and a one-turn history, `_save_history` persists
`h[-0:] = h`, i.e. one turn — more than the last 0 turns. -/
theorem save_slice_zero_counterexample :
    save_slice [Turn.mk "user" "hi"] 0 = [Turn.mk "user" "hi"]
    ∧ ¬ (((save_slice [Turn.mk "user" "hi"] 0).length : Int) ≤ 0) := by
  constructor
  · decide
  · decide

/-- Claim C3, witness: the amended theorem applied at `N = 2` and a 3-turn
history. -/
theorem save_slice_bounded_witness :
    (1 : Int) ≤ 2
    ∧ (((save_slice sampleHistory 2).length : Int) ≤ 2
       ∧ save_slice sampleHistory 2 <:+ sampleHistory) :=
  ⟨by decide, save_slice_bounded 2 sampleHistory (by decide)⟩

/-! ## C4: export round-trip -/

/-- Re-parsing inverts serialization turn-by-turn. -/
theorem mapM_jsonToTurn_map_turnToJson (h : List Turn) :
    (h.map turnToJson).mapM jsonToTurn = some h := by
  induction h with
  | nil => rfl
  | cons t ts ih =>
    rw [List.map_cons, List.mapM_cons]
    have ht : jsonToTurn (turnToJson t) = some t := rfl
    rw [ht, ih]
    rfl

/-- Claim C4: for every non-empty in-memory history `h` (of any length,
untruncated), exporting writes a document, and re-parsing that document
yields exactly `h`, role and content — the full in-memory history, not the
persisted slice. -/
theorem export_roundtrip (h : List Turn) (hne : h ≠ []) :
    ∃ j, export_history h = some j ∧ jsonToHistory j = some h := by
  refine ⟨historyToJson h, ?_, ?_⟩
  · have hempty : h.isEmpty = false := List.isEmpty_eq_false.mpr hne
    simp [export_history, hempty]
  · simp only [historyToJson, jsonToHistory]
    exact mapM_jsonToTurn_map_turnToJson h

/-- Claim C4, witness: the theorem applied at a concrete 3-turn history. -/
theorem export_roundtrip_witness :
    sampleHistory ≠ []
    ∧ ∃ j, export_history sampleHistory = some j ∧ jsonToHistory j = some sampleHistory :=
  ⟨by decide, export_roundtrip sampleHistory (by decide)⟩

/-! ## C6: no eligible files -/

/-- If no file of the directory matches any allowed extension, the collected
list is empty. -/
theorem collectCodeFiles_eq_nil (files : List SrcFile)
    (hno : files.filter (fun f => isCodeFile f) = []) :
    collectCodeFiles files = [] := by
  rw [List.filter_eq_nil_iff] at hno
  rw [collectCodeFiles, List.flatMap_eq_nil_iff]
  intro e he
  rw [List.filter_eq_nil_iff]
  intro f hf hmatch
  exact hno f hf (by rw [isCodeFile, List.any_eq_true]; exact ⟨e, he, hmatch⟩)

/-- Claim C6 (amended): for every prior context (including a previously set
one) and every existing directory with no eligible files, `set_context`
warns and leaves the stored context unchanged — so it stays unset only when
it already was unset, and it is never set to an empty string.  (The claim as
stated, that the context ends up `None`, fails when a context was previously
set: the code keeps the old value.) -/
theorem no_eligible_files_keeps_context (st : AppState) (dir : Directory)
    (hex : dir.pathExists = true)
    (hno : dir.files.filter (fun f => isCodeFile f) = []) :
    set_context st dir = st ∧ (set_context st dir).context = st.context := by
  have hcol : collectCodeFiles dir.files = [] := collectCodeFiles_eq_nil _ hno
  have heq : set_context st dir = st := by
    simp [set_context, hex, selectedFiles, hcol]
  exact ⟨heq, by rw [heq]⟩

/-- Claim C6, counterexample to the claim as stated: with prior context
`some "prior"` and an existing directory containing only an ineligible file,
`set_context` leaves the context at `some "prior"`, not `None`. -/
theorem no_eligible_files_counterexample :
    (set_context sampleState (Directory.mk true [SrcFile.mk "notes.md" "x"])).context
      = some "prior"
    ∧ (set_context sampleState (Directory.mk true [SrcFile.mk "notes.md" "x"])).context
      ≠ none := by
  constructor
  · decide
  · decide

/-- Claim C6, witness: the amended theorem applied at a concrete state with
a previously set context and a directory holding one ineligible file. -/
theorem no_eligible_files_keeps_context_witness :
    (Directory.mk true [SrcFile.mk "readme.txt" "hello"]).pathExists = true
    ∧ (Directory.mk true [SrcFile.mk "readme.txt" "hello"]).files.filter
        (fun f => isCodeFile f) = []
    ∧ (set_context sampleState (Directory.mk true [SrcFile.mk "readme.txt" "hello"])
        = sampleState
      ∧ (set_context sampleState
          (Directory.mk true [SrcFile.mk "readme.txt" "hello"])).context
        = sampleState.context) :=
  ⟨rfl, by decide,
    no_eligible_files_keeps_context sampleState
      (Directory.mk true [SrcFile.mk "readme.txt" "hello"]) rfl (by decide)⟩

/-! ## C7: nonexistent context path -/

/-- Claim C7: for every nonexistent path and every application state
(any prior context, history and configuration), `set_context` returns the
state completely unchanged — the early-return branch touches nothing, and
the model is a total function, so nothing is raised. -/
theorem set_context_missing_path_noop (st : AppState) (dir : Directory)
    (hmiss : dir.pathExists = false) :
    set_context st dir = st := by
  simp [set_context, hmiss]

/-- Claim C7, witness: the theorem applied at a concrete state (with a set
context, non-empty history and configuration) and a missing path. -/
theorem set_context_missing_path_noop_witness :
    (Directory.mk false [SrcFile.mk "a.py" "x"]).pathExists = false
    ∧ set_context sampleState (Directory.mk false [SrcFile.mk "a.py" "x"]) = sampleState :=
  ⟨rfl, set_context_missing_path_noop sampleState
    (Directory.mk false [SrcFile.mk "a.py" "x"]) rfl⟩

/-! ## C8: corrupt or missing history file -/

/-- Claim C8: whenever the history file is absent, unreadable or holds
content that cannot be deserialized, `_load_history` returns the empty
sequence; every exception is caught inside the function (the model is total),
so the process neither raises nor terminates. -/
theorem load_history_failure_empty (s : HistoryFileState)
    (hbad : s = HistoryFileState.absent ∨ s = HistoryFileState.unreadable
      ∨ s = HistoryFileState.corrupt) :
    load_history s = [] := by
  rcases hbad with hb | hb | hb <;> rw [hb] <;> rfl

/-- Claim C8, witness: the theorem applied at the corrupt-file state. -/
theorem load_history_failure_empty_witness :
    (HistoryFileState.corrupt = HistoryFileState.absent
      ∨ HistoryFileState.corrupt = HistoryFileState.unreadable
      ∨ HistoryFileState.corrupt = HistoryFileState.corrupt)
    ∧ load_history HistoryFileState.corrupt = [] :=
  ⟨Or.inr (Or.inr rfl),
    load_history_failure_empty HistoryFileState.corrupt (Or.inr (Or.inr rfl))⟩

/-! ## C9: failed remote call leaves history untouched -/

/-- Claim C9: for every one-shot request whose remote completion raises, the
error is reported, `generate_response` yields no response, and the one-shot
path leaves the whole application state — in-memory history and persisted
history file included — exactly as it was. -/
theorem failed_request_leaves_state (st : AppState) (p : String) (cc : Bool)
    (completion : List Turn → Except String String) (e : String)
    (hfail : completion (build_messages p cc st.context st.history) = Except.error e) :
    main_oneshot st p cc completion = st
    ∧ (generate_response p cc st.context st.history completion).response = none
    ∧ (generate_response p cc st.context st.history completion).errorReported = true := by
  have hgen : generate_response p cc st.context st.history completion =
      GenResult.mk none true := by
    simp [generate_response, hfail]
  refine ⟨?_, by rw [hgen], by rw [hgen]⟩
  simp [main_oneshot, hgen, optTruthy]

/-- Claim C9, witness: the theorem applied at a concrete state and an
always-raising completion oracle. -/
theorem failed_request_leaves_state_witness :
    failingCompletion (build_messages "p0" true sampleState.context sampleState.history)
      = Except.error "boom"
    ∧ (main_oneshot sampleState "p0" true failingCompletion = sampleState
      ∧ (generate_response "p0" true sampleState.context sampleState.history
          failingCompletion).response = none
      ∧ (generate_response "p0" true sampleState.context sampleState.history
          failingCompletion).errorReported = true) :=
  ⟨rfl, failed_request_leaves_state sampleState "p0" true failingCompletion "boom" rfl⟩

/-! ## C10: empty reply is not recorded -/

/-- Claim C10: when the model call succeeds but returns the empty string,
the one-shot `--continue` path leaves the application state unchanged and an
interactive iteration appends nothing to the session history: the empty
reply is falsy in Python, so both `if response` guards skip recording, just
as for a failed request. -/
theorem empty_reply_not_recorded (st : AppState) (sess : List Turn) (p : String)
    (completion : List Turn → Except String String)
    (hempty : completion (build_messages p true st.context st.history) = Except.ok "") :
    main_oneshot st p true completion = st
    ∧ interactive_step st sess p completion = sess := by
  have hgen : generate_response p true st.context st.history completion =
      GenResult.mk (some "") false := by
    simp [generate_response, hempty]
  constructor
  · simp [main_oneshot, hgen, optTruthy]
  · simp [interactive_step, hgen, optTruthy]

/-- Claim C10, witness: the theorem applied at a concrete state, session
history and an oracle replying with the empty string. -/
theorem empty_reply_not_recorded_witness :
    emptyCompletion (build_messages "p0" true sampleState.context sampleState.history)
      = Except.ok ""
    ∧ (main_oneshot sampleState "p0" true emptyCompletion = sampleState
      ∧ interactive_step sampleState [Turn.mk "user" "s"] "p0" emptyCompletion
        = [Turn.mk "user" "s"]) :=
  ⟨rfl, empty_reply_not_recorded sampleState [Turn.mk "user" "s"] "p0" emptyCompletion rfl⟩

/-! ## C5: directory with 7 eligible and 2 ineligible files -/

/-- Splitting off the head file from the per-extension collection: the head
contributes one occurrence per extension it matches. -/
theorem length_flatMap_filter_cons (E : List String) (m : String → SrcFile → Bool)
    (f : SrcFile) (fs : List SrcFile) :
    (E.flatMap (fun e => (f :: fs).filter (fun x => m e x))).length
      = (E.flatMap (fun e => fs.filter (fun x => m e x))).length
        + E.countP (fun e => m e f) := by
  induction E with
  | nil => rfl
  | cons e E ih =>
    rw [List.flatMap_cons, List.flatMap_cons, List.length_append, List.length_append,
        List.countP_cons, ih]
    by_cases hm : m e f
    · simp only [List.filter_cons, hm, if_pos, List.length_cons]
      omega
    · simp only [List.filter_cons, hm, if_neg, Bool.false_eq_true, not_false_iff]
      omega

/-- Every eligible file occurs in the collected list, so the number of
eligible files bounds its length from below. -/
theorem count_eligible_le_collect (files : List SrcFile) :
    files.countP (fun f => isCodeFile f) ≤ (collectCodeFiles files).length := by
  rw [collectCodeFiles]
  induction files with
  | nil => simp
  | cons f fs ih =>
    rw [length_flatMap_filter_cons code_extensions (fun e x => matchesExt x.name e) f fs,
        List.countP_cons]
    by_cases h : isCodeFile f
    · have hpos : 0 < code_extensions.countP (fun e => matchesExt f.name e) := by
        rw [List.countP_pos_iff]
        obtain ⟨e, he, hm⟩ := List.any_eq_true.mp (by rw [isCodeFile] at h; exact h)
        exact ⟨e, he, hm⟩
      simp only [h, if_pos]
      omega
    · simp only [h, Bool.false_eq_true, if_neg, not_false_iff]
      omega

/-- `matchesExt` read as list-suffix containment. -/
theorem matchesExt_eq_true_iff (n e : String) :
    matchesExt n e = true ↔ e.data <:+ n.data := by
  rw [matchesExt]
  exact List.isSuffixOf_iff_suffix

/-- No allowed extension is a suffix of another, so a file name matches at
most one extension of the allow-list. -/
theorem code_extensions_suffix_indep :
    code_extensions.Pairwise
      (fun e1 e2 => ¬ e1.data <:+ e2.data ∧ ¬ e2.data <:+ e1.data) := by
  decide

/-- With distinct directory entries, the collected list has no duplicates:
each filter pass keeps distinct files, and no file is kept by two passes. -/
theorem collectCodeFiles_nodup (files : List SrcFile) (hnd : files.Nodup) :
    (collectCodeFiles files).Nodup := by
  rw [collectCodeFiles, List.nodup_flatMap]
  refine ⟨fun e _ => hnd.filter _, ?_⟩
  refine List.Pairwise.imp ?_ code_extensions_suffix_indep
  intro e1 e2 h12
  intro f hf1 hf2
  rw [List.mem_filter] at hf1 hf2
  have h1 : e1.data <:+ f.name.data := (matchesExt_eq_true_iff _ _).mp hf1.2
  have h2 : e2.data <:+ f.name.data := (matchesExt_eq_true_iff _ _).mp hf2.2
  rcases List.suffix_or_suffix_of_suffix h1 h2 with hs | hs
  · exact h12.1 hs
  · exact h12.2 hs

/-- Claim C5: for every state and every directory enumeration with exactly 7
eligible files and 2 ineligible ones, `set_context` selects exactly 5 files,
all eligible and all from the directory (hence none of the ineligible ones),
distinct whenever the enumeration lists distinct entries; the new context is
exactly the selected entries joined by blank lines; and any selected file
longer than 1000 characters appears as its first 1000 characters followed by
the ellipsis marker. -/
theorem seven_eligible_selects_five (st : AppState) (files : List SrcFile)
    (h7 : (files.filter (fun f => isCodeFile f)).length = 7)
    (_h2 : (files.filter (fun f => !(isCodeFile f))).length = 2) :
    (selectedFiles files).length = 5
    ∧ (∀ f ∈ selectedFiles files, isCodeFile f = true ∧ f ∈ files)
    ∧ (files.Nodup → (selectedFiles files).Nodup)
    ∧ set_context st (Directory.mk true files)
        = { st with context := some (String.intercalate "\n\n"
              ((selectedFiles files).map formatEntry)) }
    ∧ (∀ f ∈ selectedFiles files, f.content.length > 1000 →
        formatEntry f
          = "File: " ++ f.name ++ "\n```\n" ++ (f.content.take 1000 ++ "...") ++ "\n```") := by
  have hcount : files.countP (fun f => isCodeFile f) = 7 := by
    rw [List.countP_eq_length_filter]
    exact h7
  have hlen7 : 7 ≤ (collectCodeFiles files).length := by
    rw [← hcount]
    exact count_eligible_le_collect files
  have hsel : (selectedFiles files).length = 5 := by
    rw [selectedFiles, List.length_take]
    omega
  have hmem : ∀ f ∈ selectedFiles files, isCodeFile f = true ∧ f ∈ files := by
    intro f hf
    have hf1 : f ∈ collectCodeFiles files := List.mem_of_mem_take hf
    rw [collectCodeFiles, List.mem_flatMap] at hf1
    obtain ⟨e, he, hfe⟩ := hf1
    rw [List.mem_filter] at hfe
    refine ⟨?_, hfe.1⟩
    rw [isCodeFile, List.any_eq_true]
    exact ⟨e, he, hfe.2⟩
  have hmapne : ((selectedFiles files).map formatEntry).isEmpty = false := by
    rw [List.isEmpty_eq_false]
    intro hcontra
    have hlen0 : ((selectedFiles files).map formatEntry).length = 0 := by
      rw [hcontra]
      rfl
    rw [List.length_map, hsel] at hlen0
    exact absurd hlen0 (by omega)
  refine ⟨hsel, hmem, ?_, ?_, ?_⟩
  · intro hnd
    exact List.Nodup.sublist (List.take_sublist 5 _) (collectCodeFiles_nodup files hnd)
  · simp [set_context, hmapne]
  · intro f _ hlen
    simp only [formatEntry]
    rw [if_pos hlen]

/-- A concrete directory enumeration with exactly 7 eligible and 2
ineligible files. -/
def sampleCodeDir : List SrcFile :=
  [SrcFile.mk "m1.py" "print(1)",
   SrcFile.mk "m2.js" "let x = 1",
   SrcFile.mk "notes.md" "notes",
   SrcFile.mk "m3.java" "class A",
   SrcFile.mk "m4.cpp" "int main()",
   SrcFile.mk "m5.h" "MAX 1",
   SrcFile.mk "data.txt" "data",
   SrcFile.mk "m6.go" "package main",
   SrcFile.mk "m7.rs" "fn main()"]

/-- Claim C5, witness: the theorem applied at the concrete state and the
concrete 7-plus-2 directory. -/
theorem seven_eligible_selects_five_witness :
    (sampleCodeDir.filter (fun f => isCodeFile f)).length = 7
    ∧ (sampleCodeDir.filter (fun f => !(isCodeFile f))).length = 2
    ∧ ((selectedFiles sampleCodeDir).length = 5
      ∧ (∀ f ∈ selectedFiles sampleCodeDir, isCodeFile f = true ∧ f ∈ sampleCodeDir)
      ∧ (sampleCodeDir.Nodup → (selectedFiles sampleCodeDir).Nodup)
      ∧ set_context sampleState (Directory.mk true sampleCodeDir)
          = { sampleState with context := some (String.intercalate "\n\n"
                ((selectedFiles sampleCodeDir).map formatEntry)) }
      ∧ (∀ f ∈ selectedFiles sampleCodeDir, f.content.length > 1000 →
          formatEntry f
            = "File: " ++ f.name ++ "\n```\n" ++ (f.content.take 1000 ++ "...") ++ "\n```")) :=
  ⟨by decide, by decide,
    seven_eligible_selects_five sampleState sampleCodeDir (by decide) (by decide)⟩
